import Mathlib

set_option maxRecDepth 8000

/-!
Verification of the experience-replay buffer in
`common/replay_memory/replay_memory.py` (class `ReplayMemory`).

Arrays are modelled as Lean lists (one entry per physical slot); images are
functions from pixel coordinates to rationals (uint8 values embedded in the
rationals; after `normalize_images` the array holds float values, which we
also embed in the rationals).  Fallible operations (numpy `take` with
`mode='raise'`, numpy element assignment, Python `assert`, unpacking errors,
use of an unbound variable) are modelled with explicit error results.
-/

namespace ReplayMemorySpec

/-- A stored image frame: row and column index to pixel value. -/
abbrev Img := Nat → Nat → ℚ

/-- The all-zero frame (numpy `zeros`). -/
def zeroImg : Img := fun _ _ => 0

/-- The state of a `ReplayMemory` object.  Every parallel array of the Python
class is a list whose length is the physical capacity (`max_steps` rows for a
well-formed object). -/
structure ReplayMemory where
  width : Nat
  height : Nat
  max_steps : Nat
  phi_length : Nat
  num_actions : Nat
  full_state_size : Nat
  clip_reward : Bool
  imgs : List Img
  actions : List Nat
  rewards : List ℚ
  terminal : List Nat
  lives : List Int
  loss_life : List Nat
  gain_life : List Nat
  full_state : List (List Nat)
  size : Nat
  imgs_normalized : Bool
  wrap_memory : Bool
  bottom : Nat
  top : Nat

/-- The constructor `ReplayMemory.__init__`: zero-filled arrays, `size = 0`,
`bottom = top = 0`, images not normalized. -/
def initRM (width height max_steps phi_length num_actions : Nat)
    (wrap_memory : Bool) (full_state_size : Nat) (clip_reward : Bool) :
    ReplayMemory where
  width := width
  height := height
  max_steps := max_steps
  phi_length := phi_length
  num_actions := num_actions
  full_state_size := full_state_size
  clip_reward := clip_reward
  imgs := List.replicate max_steps zeroImg
  actions := List.replicate max_steps 0
  rewards := List.replicate max_steps 0
  terminal := List.replicate max_steps 0
  lives := List.replicate max_steps 0
  loss_life := List.replicate max_steps 0
  gain_life := List.replicate max_steps 0
  full_state := List.replicate max_steps (List.replicate full_state_size 0)
  size := 0
  imgs_normalized := false
  wrap_memory := wrap_memory
  bottom := 0
  top := 0

/-- Python exceptions that the modelled code can raise. -/
inductive PyErr where
  | nameErr : PyErr
  | valueErr : PyErr
  | indexErr : PyErr
  | assertErr : PyErr
deriving DecidableEq

/-- numpy `take` of a list of indices with `mode='raise'`: `none` models the
raised `IndexError` when some index is out of range. -/
def takeR {α : Type} (l : List α) (d : α) (idx : List Nat) : Option (List α) :=
  if idx.all (fun i => decide (i < l.length)) then
    some (idx.map (fun i => l.getD i d))
  else none

/-- numpy `take` of a list of indices with `mode='wrap'`: each index is
reduced modulo the array length. -/
def takeW {α : Type} (l : List α) (d : α) (idx : List Nat) : List α :=
  idx.map (fun i => l.getD (i % l.length) d)

/-- numpy `take` of a single index with `mode='raise'`. -/
def take1R {α : Type} (l : List α) (d : α) (i : Nat) : Option α :=
  if i < l.length then some (l.getD i d) else none

/-- numpy `take` of a single index with `mode='wrap'`. -/
def take1W {α : Type} (l : List α) (d : α) (i : Nat) : α :=
  l.getD (i % l.length) d

/-- `np.sign` on a rational. -/
def npSign (q : ℚ) : ℚ := if 0 < q then 1 else if q < 0 then -1 else 0

/-- Result of `__getitem__`: an `IndexError` escaping from a raise-mode
`take`, the unavailable result (the tuple of `None`s returned at an invalid
window), or the full eight-component tuple. -/
inductive GetRes where
  | err : GetRes
  | unavailable : GetRes
  | ok : List Img → Nat → ℚ → Nat → List Img → Int → Nat → Nat → GetRes

/-- The body of `__getitem__` after the availability checks have passed
(source lines 221-239): stack the `phi_length` frames, read the scalars at
`end_index`, clip the reward if configured, and build the successor state
(zero-filled when the current frame is terminal).  Takes use the mode
selected by `wrap_memory`. -/
def getitemFetch (rm : ReplayMemory) (key : Nat) : GetRes :=
  let indices := (List.range rm.phi_length).map (fun j => key + j)
  let indicesNext := (List.range rm.phi_length).map (fun j => 1 + key + j)
  let endIndex := key + rm.phi_length - 1
  if rm.wrap_memory then
    let state := takeW rm.imgs zeroImg indices
    let action := take1W rm.actions 0 endIndex
    let reward0 := take1W rm.rewards 0 endIndex
    let reward := if rm.clip_reward then npSign reward0 else reward0
    let term := take1W rm.terminal 0 endIndex
    let lv := take1W rm.lives 0 endIndex
    let ll := take1W rm.loss_life 0 endIndex
    let gl := take1W rm.gain_life 0 endIndex
    let nextState :=
      if term == 0 then takeW rm.imgs zeroImg indicesNext
      else List.replicate rm.phi_length zeroImg
    .ok state action reward term nextState lv ll gl
  else
    match takeR rm.imgs zeroImg indices with
    | none => .err
    | some state =>
      match take1R rm.actions 0 endIndex, take1R rm.rewards 0 endIndex,
          take1R rm.terminal 0 endIndex, take1R rm.lives 0 endIndex,
          take1R rm.loss_life 0 endIndex, take1R rm.gain_life 0 endIndex with
      | some action, some reward0, some term, some lv, some ll, some gl =>
        let reward := if rm.clip_reward then npSign reward0 else reward0
        if term == 0 then
          match takeR rm.imgs zeroImg indicesNext with
          | none => .err
          | some nextState => .ok state action reward term nextState lv ll gl
        else
          .ok state action reward term (List.replicate rm.phi_length zeroImg) lv ll gl
      | _, _, _, _, _, _ => .err

/-- `__getitem__(key)` (source lines 201-239).  In wrapping mode the window is
rejected when any terminal flag among the first `phi_length - 1` offsets
(taken with wrap) is set; in bounded mode it is additionally rejected when
`end_index >= size`, and the terminal lookup itself uses raise mode. -/
def getitem (rm : ReplayMemory) (key : Nat) : GetRes :=
  let indices := (List.range rm.phi_length).map (fun j => key + j)
  let endIndex := key + rm.phi_length - 1
  if rm.wrap_memory then
    if (takeW rm.terminal 0 indices.dropLast).any (fun t => t != 0) then
      .unavailable
    else getitemFetch rm key
  else
    if rm.size ≤ endIndex then .unavailable
    else
      match takeR rm.terminal 0 indices.dropLast with
      | none => .err
      | some interior =>
        if interior.any (fun t => t != 0) then .unavailable
        else getitemFetch rm key

theorem getitemFetch_ne_unavailable (rm : ReplayMemory) (key : Nat) :
    getitemFetch rm key ≠ GetRes.unavailable := by
  unfold getitemFetch
  dsimp only
  repeat' split
  all_goals intro h
  all_goals exact GetRes.noConfusion h

theorem dropLast_map_range (f : Nat → Nat) (n : Nat) :
    ((List.range n).map f).dropLast = (List.range (n - 1)).map f := by
  cases n with
  | zero => rfl
  | succ m =>
    rw [List.range_succ, List.map_append]
    simp [List.dropLast_concat]

theorem ite_unavailable_iff {c : Prop} [Decidable c] {x : GetRes}
    (hx : x ≠ GetRes.unavailable) :
    ((if c then GetRes.unavailable else x) = GetRes.unavailable) ↔ c := by
  split <;> simp_all

theorem any_takeW_iff (l : List Nat) (key n : Nat) :
    (((takeW l 0 ((List.range n).map fun j => key + j)).any fun t => t != 0) = true) ↔
      ∃ j, j < n ∧ l.getD ((key + j) % l.length) 0 ≠ 0 := by
  simp [takeW, List.any_eq_true]

theorem any_mapGetD_iff (l : List Nat) (key n : Nat) :
    (((((List.range n).map fun j => key + j).map fun i => l.getD i 0).any
        fun t => t != 0) = true) ↔
      ∃ j, j < n ∧ l.getD (key + j) 0 ≠ 0 := by
  simp [List.any_eq_true]

theorem takeR_map_range_some (l : List Nat) (key n : Nat) (h : key + n ≤ l.length) :
    takeR l 0 ((List.range n).map fun j => key + j) =
      some (((List.range n).map fun j => key + j).map fun i => l.getD i 0) := by
  unfold takeR
  rw [if_pos]
  simp only [List.all_eq_true, List.mem_map, List.mem_range, decide_eq_true_eq]
  rintro i ⟨j, hj, rfl⟩
  omega

/-- C1: the window accessor `__getitem__` returns the unavailable result
exactly when the window would read past `size` in bounded mode, or when some
terminal flag at offsets `key .. key+phi_length-2` (taken modulo capacity in
wrapping mode) is set; a terminal flag at the last offset alone never makes
the window unavailable. -/
theorem getitem_unavailable_iff (rm : ReplayMemory) (key : Nat)
    (hphi : 1 ≤ rm.phi_length)
    (hterm : rm.terminal.length = rm.max_steps)
    (hsz : rm.size ≤ rm.max_steps) :
    getitem rm key = GetRes.unavailable ↔
      (if rm.wrap_memory then
        ∃ j, j + 1 < rm.phi_length ∧
          rm.terminal.getD ((key + j) % rm.max_steps) 0 ≠ 0
      else
        rm.size ≤ key + rm.phi_length - 1 ∨
          ∃ j, j + 1 < rm.phi_length ∧ rm.terminal.getD (key + j) 0 ≠ 0) := by
  unfold getitem
  dsimp only
  rw [dropLast_map_range]
  cases hw : rm.wrap_memory with
  | true =>
    rw [if_pos rfl, if_pos rfl,
      ite_unavailable_iff (getitemFetch_ne_unavailable rm key),
      any_takeW_iff, hterm]
    exact exists_congr fun j => and_congr_left' (by omega)
  | false =>
    rw [if_neg Bool.false_ne_true, if_neg Bool.false_ne_true]
    by_cases hend : rm.size ≤ key + rm.phi_length - 1
    · rw [if_pos hend]
      simp [hend]
    · rw [if_neg hend,
        takeR_map_range_some rm.terminal key (rm.phi_length - 1) (by omega),
        ite_unavailable_iff (getitemFetch_ne_unavailable rm key),
        any_mapGetD_iff]
      constructor
      · intro hx
        exact Or.inr (hx.imp fun j hj => ⟨by omega, hj.2⟩)
      · rintro (h | hx)
        · exact absurd h hend
        · exact hx.imp fun j hj => ⟨by omega, hj.2⟩

/-- Witness for C1: applies the theorem at a concrete buffer. -/
theorem getitem_unavailable_iff_witness :
    getitem { initRM 1 1 4 4 1 false 3 true with
        size := 4, terminal := [0, 1, 0, 0] } 0 = GetRes.unavailable := by
  rw [getitem_unavailable_iff
    { initRM 1 1 4 4 1 false 3 true with size := 4, terminal := [0, 1, 0, 0] } 0
    (by decide) (by decide) (by decide)]
  rw [if_neg (by decide)]
  exact Or.inr ⟨1, by decide, by decide⟩

/-- One record passed to `add`: observed image, action, reward, terminal
flag, lives, the two life-change flags and the auxiliary full-state vector.
The image is passed as exact pixel data; the full-state vector is a raw list
so that numpy's broadcast check on row assignment can be modelled. -/
structure AddInput where
  img : Nat → Nat → Nat
  action : Nat
  reward : ℚ
  terminal : Bool
  lives : Int
  losslife : Bool
  gainlife : Bool
  fullstate : List Nat

/-- Result of a mutating call: normal return, or a raised Python exception
together with the object state at the moment of the raise (earlier in-place
writes remain visible). -/
inductive PyRes where
  | ok : ReplayMemory → PyRes
  | raised : PyErr → ReplayMemory → PyRes

/-- The object state after a call, whether or not it raised. -/
def stateOfP : PyRes → ReplayMemory
  | .ok rm => rm
  | .raised _ rm => rm

/-- The exception raised by a call, if any. -/
def errOfP : PyRes → Option PyErr
  | .ok _ => none
  | .raised e _ => some e

/-- Python booleans stored into a numpy uint8 array. -/
def b2n (b : Bool) : Nat := if b then 1 else 0

/-- Storing a frame into the image array: while the array holds raw uint8
data the values are reduced modulo 256; after `normalize_images` the array is
a float array and values are stored as given. -/
def storeImg (normalized : Bool) (img : Nat → Nat → Nat) : Img :=
  fun y x => if normalized then (img y x : ℚ) else ((img y x % 256 : Nat) : ℚ)

/-- numpy element assignment `arr[i] = v`: `none` models the `IndexError`
when `i` is out of range. -/
def setAt {α : Type} (l : List α) (i : Nat) (v : α) : Option (List α) :=
  if i < l.length then some (l.set i v) else none

/-- numpy row assignment `arr2d[i] = v` for a 1-D right-hand side: raises
`IndexError` when `i` is out of range, broadcasts a length-1 vector across
the row, and raises `ValueError` when the lengths cannot be broadcast. -/
def setRow (l : List (List Nat)) (i : Nat) (v : List Nat) :
    Except PyErr (List (List Nat)) :=
  if i < l.length then
    let dst := l.getD i []
    if v.length == dst.length then .ok (l.set i v)
    else if v.length == 1 then
      .ok (l.set i (List.replicate dst.length (v.headD 0)))
    else .error .valueErr
  else .error .indexErr

/-- The row actually stored by a successful broadcast assignment into a row
of width `w`. -/
def rowVal (w : Nat) (v : List Nat) : List Nat :=
  if v.length == 1 then List.replicate w (v.headD 0) else v

/-- `add` (source lines 159-193).  In bounded mode a full buffer makes the
call a no-op; otherwise the record is written at slot `size` (bounded) or
`top` (wrapping) across all parallel arrays, in source order, then the
cursors are updated: in wrapping mode a full buffer advances `bottom`,
otherwise `size` is incremented, and `top` always advances modulo capacity
in wrapping mode. -/
def add (rm : ReplayMemory) (inp : AddInput) : PyRes :=
  if !rm.wrap_memory && rm.size == rm.max_steps then .ok rm
  else
    let idx := if rm.wrap_memory then rm.top else rm.size
    match setAt rm.imgs idx (storeImg rm.imgs_normalized inp.img) with
    | none => .raised .indexErr rm
    | some imgs1 =>
    let rm1 := { rm with imgs := imgs1 }
    match setAt rm1.actions idx (inp.action % 256) with
    | none => .raised .indexErr rm1
    | some acts1 =>
    let rm2 := { rm1 with actions := acts1 }
    match setAt rm2.rewards idx inp.reward with
    | none => .raised .indexErr rm2
    | some rws1 =>
    let rm3 := { rm2 with rewards := rws1 }
    match setAt rm3.terminal idx (b2n inp.terminal) with
    | none => .raised .indexErr rm3
    | some terms1 =>
    let rm4 := { rm3 with terminal := terms1 }
    match setAt rm4.lives idx inp.lives with
    | none => .raised .indexErr rm4
    | some lvs1 =>
    let rm5 := { rm4 with lives := lvs1 }
    match setAt rm5.loss_life idx (b2n inp.losslife) with
    | none => .raised .indexErr rm5
    | some lls1 =>
    let rm6 := { rm5 with loss_life := lls1 }
    match setAt rm6.gain_life idx (b2n inp.gainlife) with
    | none => .raised .indexErr rm6
    | some gls1 =>
    let rm7 := { rm6 with gain_life := gls1 }
    match setRow rm7.full_state idx inp.fullstate with
    | .error e => .raised e rm7
    | .ok fs1 =>
    let rm8 := { rm7 with full_state := fs1 }
    let rm9 :=
      if rm8.wrap_memory && rm8.size == rm8.max_steps then
        { rm8 with bottom := (rm8.bottom + 1) % rm8.max_steps }
      else { rm8 with size := rm8.size + 1 }
    if rm9.wrap_memory then .ok { rm9 with top := (rm9.top + 1) % rm9.max_steps }
    else .ok rm9

/-- `add` with the default arguments `losslife=False`, `gainlife=False`,
`fullstate=np.zeros(1021)` (source line 159). -/
def addDefault (rm : ReplayMemory) (img : Nat → Nat → Nat) (action : Nat)
    (reward : ℚ) (terminal : Bool) (lives : Int) : PyRes :=
  add rm ⟨img, action, reward, terminal, lives, false, false, List.replicate 1021 0⟩

/-- Iterated `add`: the state after a sequence of calls (the state at a raise
is the state carried forward, so the invariants proved below cover every
state the object can be left in). -/
def addSeq (rm : ReplayMemory) (inps : List AddInput) : ReplayMemory :=
  inps.foldl (fun s i => stateOfP (add s i)) rm

/-- Well-formedness of a buffer: every parallel array has `max_steps` rows,
`size` is at most capacity, the write cursor is in range in wrapping mode,
and every full-state row has the declared width. -/
def WF (rm : ReplayMemory) : Prop :=
  rm.imgs.length = rm.max_steps ∧ rm.actions.length = rm.max_steps ∧
  rm.rewards.length = rm.max_steps ∧ rm.terminal.length = rm.max_steps ∧
  rm.lives.length = rm.max_steps ∧ rm.loss_life.length = rm.max_steps ∧
  rm.gain_life.length = rm.max_steps ∧ rm.full_state.length = rm.max_steps ∧
  rm.size ≤ rm.max_steps ∧
  (rm.wrap_memory = true → rm.top < rm.max_steps) ∧
  (∀ r ∈ rm.full_state, r.length = rm.full_state_size)

/-- A record whose full-state vector can be broadcast into a row. -/
def inputOk (rm : ReplayMemory) (inp : AddInput) : Prop :=
  inp.fullstate.length = rm.full_state_size ∨ inp.fullstate.length = 1

/-- The state produced by a successful `add` on a well-formed buffer, written
out field by field (used to state the claims about `add`). -/
def addResult (rm : ReplayMemory) (inp : AddInput) : ReplayMemory :=
  let idx := if rm.wrap_memory then rm.top else rm.size
  { rm with
    imgs := rm.imgs.set idx (storeImg rm.imgs_normalized inp.img)
    actions := rm.actions.set idx (inp.action % 256)
    rewards := rm.rewards.set idx inp.reward
    terminal := rm.terminal.set idx (b2n inp.terminal)
    lives := rm.lives.set idx inp.lives
    loss_life := rm.loss_life.set idx (b2n inp.losslife)
    gain_life := rm.gain_life.set idx (b2n inp.gainlife)
    full_state := rm.full_state.set idx (rowVal rm.full_state_size inp.fullstate)
    size :=
      if rm.wrap_memory = true ∧ rm.size = rm.max_steps then rm.size
      else rm.size + 1
    bottom :=
      if rm.wrap_memory = true ∧ rm.size = rm.max_steps then
        (rm.bottom + 1) % rm.max_steps
      else rm.bottom
    top := if rm.wrap_memory then (rm.top + 1) % rm.max_steps else rm.top }

theorem setAt_lt {α : Type} (l : List α) (i : Nat) (v : α) (h : i < l.length) :
    setAt l i v = some (l.set i v) := by
  unfold setAt
  rw [if_pos h]

theorem replicate_one_headD (v : List Nat) (hv : v.length = 1) :
    List.replicate 1 (v.headD 0) = v := by
  cases v with
  | nil => simp at hv
  | cons a t =>
    cases t with
    | nil => rfl
    | cons b u => simp at hv

theorem setRow_ok (l : List (List Nat)) (i : Nat) (v : List Nat) (w : Nat)
    (hi : i < l.length) (hrow : (l.getD i []).length = w)
    (hv : v.length = w ∨ v.length = 1) :
    setRow l i v = Except.ok (l.set i (rowVal w v)) := by
  unfold setRow
  rw [if_pos hi]
  dsimp only
  rcases hv with hv | hv
  · rw [if_pos (by simp only [beq_iff_eq]; exact hv.trans hrow.symm)]
    unfold rowVal
    by_cases h1 : v.length = 1
    · rw [if_pos (by simp only [beq_iff_eq]; exact h1), show w = 1 by omega,
        replicate_one_headD v h1]
    · rw [if_neg (by simp only [beq_iff_eq]; exact h1)]
  · by_cases heq : v.length = (l.getD i []).length
    · rw [if_pos (by simp only [beq_iff_eq]; exact heq)]
      unfold rowVal
      rw [if_pos (by simp only [beq_iff_eq]; exact hv), show w = 1 by omega,
        replicate_one_headD v hv]
    · rw [if_neg (by simp only [beq_iff_eq]; exact heq),
        if_pos (by simp only [beq_iff_eq]; exact hv)]
      unfold rowVal
      rw [if_pos (by simp only [beq_iff_eq]; exact hv), hrow]

theorem add_ok_of (rm : ReplayMemory) (inp : AddInput)
    (hwf : WF rm) (hok : inputOk rm inp)
    (hidx : (if rm.wrap_memory then rm.top else rm.size) < rm.max_steps)
    (hnf : rm.wrap_memory = false → rm.size ≠ rm.max_steps) :
    add rm inp = PyRes.ok (addResult rm inp) := by
  obtain ⟨h1, h2, h3, h4, h5, h6, h7, h8, h9, h10, h11⟩ := hwf
  have hguard : (!rm.wrap_memory && rm.size == rm.max_steps) = false := by
    cases hwm : rm.wrap_memory with
    | true => simp
    | false => simpa using hnf hwm
  unfold add
  rw [hguard, if_neg Bool.false_ne_true]
  dsimp only
  rw [setAt_lt _ _ _ (by rw [h1]; exact hidx)]
  dsimp only
  rw [setAt_lt _ _ _ (by rw [h2]; exact hidx)]
  dsimp only
  rw [setAt_lt _ _ _ (by rw [h3]; exact hidx)]
  dsimp only
  rw [setAt_lt _ _ _ (by rw [h4]; exact hidx)]
  dsimp only
  rw [setAt_lt _ _ _ (by rw [h5]; exact hidx)]
  dsimp only
  rw [setAt_lt _ _ _ (by rw [h6]; exact hidx)]
  dsimp only
  rw [setAt_lt _ _ _ (by rw [h7]; exact hidx)]
  dsimp only
  have hifs : (if rm.wrap_memory then rm.top else rm.size) < rm.full_state.length := by
    rw [h8]; exact hidx
  have hrow : (rm.full_state.getD (if rm.wrap_memory then rm.top else rm.size) []).length
      = rm.full_state_size := by
    rw [List.getD_eq_getElem _ _ hifs]
    exact h11 _ (List.getElem_mem hifs)
  rw [setRow_ok _ _ _ _ hifs hrow hok]
  dsimp only
  cases hwm : rm.wrap_memory with
  | false =>
    have hne : rm.size ≠ rm.max_steps := hnf hwm
    simp [addResult, hwm, hne]
  | true =>
    by_cases hfull : rm.size = rm.max_steps <;> simp [addResult, hwm, hfull]

theorem add_proj (rm : ReplayMemory) (inp : AddInput) :
    (stateOfP (add rm inp)).wrap_memory = rm.wrap_memory ∧
    (stateOfP (add rm inp)).max_steps = rm.max_steps ∧
    ((stateOfP (add rm inp)).size = rm.size ∨
      ((stateOfP (add rm inp)).size = rm.size + 1 ∧
        ¬(rm.wrap_memory = false ∧ rm.size = rm.max_steps))) := by
  unfold add
  dsimp only
  split
  next hguard =>
    simp [stateOfP]
  next hguard =>
    have hnfull : ¬(rm.wrap_memory = false ∧ rm.size = rm.max_steps) := by
      rintro ⟨ha, hb⟩
      exact hguard (by simp [ha, hb])
    repeat' split
    all_goals simp only [stateOfP]
    all_goals simp_all

theorem rowVal_length (w : Nat) (v : List Nat) (hv : v.length = w ∨ v.length = 1) :
    (rowVal w v).length = w := by
  unfold rowVal
  split
  · simp
  · next h =>
    rcases hv with hv | hv
    · exact hv
    · simp [hv] at h

theorem addResult_preserves (rm : ReplayMemory) (inp : AddInput)
    (hwf : WF rm) (hok : inputOk rm inp)
    (hnf : rm.wrap_memory = false → rm.size ≠ rm.max_steps) :
    WF (addResult rm inp) := by
  obtain ⟨h1, h2, h3, h4, h5, h6, h7, h8, h9, h10, h11⟩ := hwf
  refine ⟨by simp [addResult, h1], by simp [addResult, h2], by simp [addResult, h3],
    by simp [addResult, h4], by simp [addResult, h5], by simp [addResult, h6],
    by simp [addResult, h7], by simp [addResult, h8], ?_, ?_, ?_⟩
  · show (if rm.wrap_memory = true ∧ rm.size = rm.max_steps then rm.size
      else rm.size + 1) ≤ rm.max_steps
    split
    · exact h9
    · next hc =>
      cases hwm : rm.wrap_memory with
      | false => have := hnf hwm; omega
      | true =>
        have : ¬rm.size = rm.max_steps := fun he => hc ⟨hwm, he⟩
        omega
  · intro hwm
    have hw : rm.wrap_memory = true := hwm
    show (if rm.wrap_memory = true then (rm.top + 1) % rm.max_steps else rm.top) <
      rm.max_steps
    rw [if_pos hw]
    exact Nat.mod_lt _ (by have := h10 hw; omega)
  · intro r hr
    show r.length = rm.full_state_size
    rcases List.mem_or_eq_of_mem_set hr with hr | hr
    · exact h11 r hr
    · subst hr
      exact rowVal_length _ _ hok

theorem addSeq_cons (rm : ReplayMemory) (i : AddInput) (rest : List AddInput) :
    addSeq rm (i :: rest) = addSeq (stateOfP (add rm i)) rest := rfl

theorem addSeq_bounded_size_le (rm : ReplayMemory) (inps : List AddInput)
    (hw : rm.wrap_memory = false) (hsz : rm.size ≤ rm.max_steps) :
    (addSeq rm inps).size ≤ rm.max_steps := by
  induction inps generalizing rm with
  | nil => exact hsz
  | cons i rest ih =>
    rw [addSeq_cons]
    obtain ⟨hpw, hpm, hps⟩ := add_proj rm i
    have hw' : (stateOfP (add rm i)).wrap_memory = false := by rw [hpw, hw]
    have hsz' : (stateOfP (add rm i)).size ≤ (stateOfP (add rm i)).max_steps := by
      rw [hpm]
      rcases hps with hps | ⟨hps, hne⟩
      · omega
      · have : rm.size ≠ rm.max_steps := fun he => hne ⟨hw, he⟩
        omega
    have := ih (stateOfP (add rm i)) hw' hsz'
    rwa [hpm] at this

/-- C2: in bounded mode `size` never exceeds `max_steps` over any sequence of
`add` calls; an `add` on a full buffer is a no-op returning the state
unchanged; otherwise `add` writes the record at physical slot `size` in every
parallel array and increments `size` by exactly one. -/
theorem add_bounded_spec (rm : ReplayMemory) (inp : AddInput) (inps : List AddInput)
    (hw : rm.wrap_memory = false) (hsz : rm.size ≤ rm.max_steps) :
    (addSeq rm inps).size ≤ rm.max_steps ∧
    (rm.size = rm.max_steps → add rm inp = PyRes.ok rm) ∧
    (rm.size < rm.max_steps → WF rm → inputOk rm inp →
      ∃ rm', add rm inp = PyRes.ok rm' ∧
        rm'.size = rm.size + 1 ∧
        rm'.imgs = rm.imgs.set rm.size (storeImg rm.imgs_normalized inp.img) ∧
        rm'.actions = rm.actions.set rm.size (inp.action % 256) ∧
        rm'.rewards = rm.rewards.set rm.size inp.reward ∧
        rm'.terminal = rm.terminal.set rm.size (b2n inp.terminal) ∧
        rm'.lives = rm.lives.set rm.size inp.lives ∧
        rm'.loss_life = rm.loss_life.set rm.size (b2n inp.losslife) ∧
        rm'.gain_life = rm.gain_life.set rm.size (b2n inp.gainlife) ∧
        rm'.full_state =
          rm.full_state.set rm.size (rowVal rm.full_state_size inp.fullstate) ∧
        rm'.top = rm.top ∧ rm'.bottom = rm.bottom ∧
        rm'.max_steps = rm.max_steps) := by
  refine ⟨addSeq_bounded_size_le rm inps hw hsz, ?_, ?_⟩
  · intro hfull
    unfold add
    rw [if_pos (by simp [hw, hfull])]
  · intro hlt hwf hok
    refine ⟨addResult rm inp,
      add_ok_of rm inp hwf hok (by rw [hw]; simpa using hlt) (fun _ => by omega), ?_⟩
    simp [addResult, hw]

/-- Witness for C2 at a concrete buffer and record. -/
theorem add_bounded_spec_witness :
    (addSeq (initRM 1 1 2 4 1 false 3 true)
        [⟨fun _ _ => 7, 0, 1, false, 3, false, false, List.replicate 3 0⟩]).size ≤
      (initRM 1 1 2 4 1 false 3 true).max_steps :=
  (add_bounded_spec (initRM 1 1 2 4 1 false 3 true)
    ⟨fun _ _ => 7, 0, 1, false, 3, false, false, List.replicate 3 0⟩
    [⟨fun _ _ => 7, 0, 1, false, 3, false, false, List.replicate 3 0⟩]
    (by decide) (by decide)).1

theorem addSeq_wrap_size (rm : ReplayMemory) (inps : List AddInput)
    (hw : rm.wrap_memory = true) (hwf : WF rm)
    (hoks : ∀ i ∈ inps, inputOk rm i) :
    (addSeq rm inps).size = min (rm.size + inps.length) rm.max_steps := by
  induction inps generalizing rm with
  | nil =>
    obtain ⟨-, -, -, -, -, -, -, -, h9, -, -⟩ := id hwf
    simp [addSeq]
    omega
  | cons i rest ih =>
    obtain ⟨-, -, -, -, -, -, -, -, h9, h10, -⟩ := id hwf
    have hok : inputOk rm i := hoks i (List.mem_cons_self _ _)
    have hadd := add_ok_of rm i hwf hok (by rw [if_pos hw]; exact h10 hw)
      (by simp [hw])
    rw [addSeq_cons, hadd]
    simp only [stateOfP]
    have hwf' := addResult_preserves rm i hwf hok (by simp [hw])
    have hw2 : (addResult rm i).wrap_memory = true := hw
    have hoks' : ∀ j ∈ rest, inputOk (addResult rm i) j := fun j hj =>
      hoks j (List.mem_cons_of_mem _ hj)
    have hs' : (addResult rm i).size =
        (if rm.wrap_memory = true ∧ rm.size = rm.max_steps then rm.size
          else rm.size + 1) := rfl
    have hm' : (addResult rm i).max_steps = rm.max_steps := rfl
    rw [ih (addResult rm i) hw2 hwf' hoks', hs', hm']
    by_cases hfull : rm.size = rm.max_steps <;> simp [hw, hfull] <;> omega

/-- C3: in wrapping mode every `add` writes the record at physical slot
`top`; if the buffer is full `bottom` advances by one modulo capacity and
`size` stays at capacity, otherwise `size` increments; `top` always advances
by one modulo capacity.  Consequently `size = min (size + n) max_steps` after
`n` adds, so after `max_steps` adds `size` equals `max_steps` permanently. -/
theorem add_wrap_spec (rm : ReplayMemory) (inp : AddInput) (inps : List AddInput)
    (hw : rm.wrap_memory = true) (hwf : WF rm) (hok : inputOk rm inp)
    (hoks : ∀ i ∈ inps, inputOk rm i) :
    (∃ rm', add rm inp = PyRes.ok rm' ∧
      rm'.imgs = rm.imgs.set rm.top (storeImg rm.imgs_normalized inp.img) ∧
      rm'.actions = rm.actions.set rm.top (inp.action % 256) ∧
      rm'.rewards = rm.rewards.set rm.top inp.reward ∧
      rm'.terminal = rm.terminal.set rm.top (b2n inp.terminal) ∧
      rm'.lives = rm.lives.set rm.top inp.lives ∧
      rm'.loss_life = rm.loss_life.set rm.top (b2n inp.losslife) ∧
      rm'.gain_life = rm.gain_life.set rm.top (b2n inp.gainlife) ∧
      rm'.full_state =
        rm.full_state.set rm.top (rowVal rm.full_state_size inp.fullstate) ∧
      rm'.top = (rm.top + 1) % rm.max_steps ∧
      (rm.size = rm.max_steps →
        rm'.bottom = (rm.bottom + 1) % rm.max_steps ∧ rm'.size = rm.max_steps) ∧
      (rm.size ≠ rm.max_steps → rm'.bottom = rm.bottom ∧ rm'.size = rm.size + 1)) ∧
    (addSeq rm inps).size = min (rm.size + inps.length) rm.max_steps ∧
    (rm.max_steps ≤ inps.length → (addSeq rm inps).size = rm.max_steps) := by
  obtain ⟨-, -, -, -, -, -, -, -, h9, h10, -⟩ := id hwf
  refine ⟨⟨addResult rm inp,
    add_ok_of rm inp hwf hok (by rw [if_pos hw]; exact h10 hw) (by simp [hw]), ?_⟩,
    addSeq_wrap_size rm inps hw hwf hoks, ?_⟩
  · by_cases hfull : rm.size = rm.max_steps <;>
      simp [addResult, hw, hfull]
  · intro hn
    rw [addSeq_wrap_size rm inps hw hwf hoks]
    omega

/-- Witness for C3 at a concrete buffer and records. -/
theorem add_wrap_spec_witness :
    (addSeq (initRM 1 1 2 4 1 true 3 true)
        [⟨fun _ _ => 7, 0, 1, false, 3, false, false, List.replicate 3 0⟩,
         ⟨fun _ _ => 8, 0, 2, false, 3, false, false, List.replicate 3 0⟩,
         ⟨fun _ _ => 9, 0, 3, false, 3, false, false, List.replicate 3 0⟩]).size =
      min ((initRM 1 1 2 4 1 true 3 true).size + 3)
        (initRM 1 1 2 4 1 true 3 true).max_steps :=
  (add_wrap_spec (initRM 1 1 2 4 1 true 3 true)
    ⟨fun _ _ => 7, 0, 1, false, 3, false, false, List.replicate 3 0⟩
    [⟨fun _ _ => 7, 0, 1, false, 3, false, false, List.replicate 3 0⟩,
     ⟨fun _ _ => 8, 0, 2, false, 3, false, false, List.replicate 3 0⟩,
     ⟨fun _ _ => 9, 0, 3, false, 3, false, false, List.replicate 3 0⟩]
    (by decide) (by unfold WF; decide) (by exact Or.inl rfl)
    (by intro i hi; fin_cases hi <;> exact Or.inl rfl)).2.1

/-- `resize` (source lines 118-157): `np.delete(arr, range(size, max_steps))`
keeps the first `size` rows of every parallel array, then `max_steps` is set
to `size`.  The source performs no mode check and cannot fail on a
well-formed buffer. -/
def resize (rm : ReplayMemory) : ReplayMemory :=
  { rm with
    imgs := rm.imgs.take rm.size
    actions := rm.actions.take rm.size
    rewards := rm.rewards.take rm.size
    terminal := rm.terminal.take rm.size
    lives := rm.lives.take rm.size
    loss_life := rm.loss_life.take rm.size
    gain_life := rm.gain_life.take rm.size
    full_state := rm.full_state.take rm.size
    max_steps := rm.size }

/-- Modelled from the spec: the image-compression helpers
`save_compressed_images` and `get_compressed_images` live in `common/util`,
which is not among the sources; the spec's round-trip contract requires the
decompressed pixel values to be reproduced exactly, so the compressed image
archive is modelled as the image list itself.  The remaining fields are the
pickled dictionary written by `save` (source lines 419-436). -/
structure SavedData where
  width : Nat
  height : Nat
  max_steps : Nat
  phi_length : Nat
  num_actions : Nat
  actions : List Nat
  rewards : List ℚ
  terminal : List Nat
  lives : List Int
  loss_life : List Nat
  gain_life : List Nat
  full_state_size : Nat
  full_state : List (List Nat)
  size : Nat
  wrap_memory : Bool
  top : Nat
  bottom : Nat
  imgs_normalized : Bool
  images : List Img

/-- The data written by `save` (source lines 419-442): every scalar field and
non-image array in the pickle, plus the separately compressed image array. -/
def saveData (rm : ReplayMemory) : SavedData where
  width := rm.width
  height := rm.height
  max_steps := rm.max_steps
  phi_length := rm.phi_length
  num_actions := rm.num_actions
  actions := rm.actions
  rewards := rm.rewards
  terminal := rm.terminal
  lives := rm.lives
  loss_life := rm.loss_life
  gain_life := rm.gain_life
  full_state_size := rm.full_state_size
  full_state := rm.full_state
  size := rm.size
  wrap_memory := rm.wrap_memory
  top := rm.top
  bottom := rm.bottom
  imgs_normalized := rm.imgs_normalized
  images := rm.imgs

/-- `save(name, folder, resize)` (source lines 412-443): optionally resizes
in place first (no mode check), then writes the saved data; returns the
mutated object together with the written artifacts. -/
def save (rm : ReplayMemory) (resizeFlag : Bool) : ReplayMemory × SavedData :=
  let rm2 := if resizeFlag then resize rm else rm
  (rm2, saveData rm2)

/-- `load(name, folder)` (source lines 445-476): every field of the loaded
data overwrites the corresponding field of the receiver (the schema-evolution
defaults on the optional fields are never taken for data produced by `save`,
which always writes them). -/
def load (rm : ReplayMemory) (d : SavedData) : ReplayMemory :=
  { rm with
    width := d.width
    height := d.height
    max_steps := d.max_steps
    phi_length := d.phi_length
    num_actions := d.num_actions
    actions := d.actions
    rewards := d.rewards
    terminal := d.terminal
    lives := d.lives
    loss_life := d.loss_life
    gain_life := d.gain_life
    full_state_size := d.full_state_size
    full_state := d.full_state
    size := d.size
    wrap_memory := d.wrap_memory
    top := d.top
    bottom := d.bottom
    imgs_normalized := d.imgs_normalized
    imgs := d.images }

/-- Counterexample to C6 as stated: on a wrapping-mode buffer `resize` is not
refused and does not leave the buffer unchanged — it truncates the arrays and
changes `max_steps`. -/
theorem resize_wrap_not_refused :
    (initRM 1 1 2 4 1 true 3 true).wrap_memory = true ∧
    (resize (initRM 1 1 2 4 1 true 3 true)).max_steps ≠
      (initRM 1 1 2 4 1 true 3 true).max_steps := by
  exact ⟨rfl, by decide⟩

/-- C6 (amended): `resize` performs no mode check: in every mode, wrapping
included, it truncates each parallel array to its first `size` rows (so each
then has exactly `size` rows) and sets `max_steps` to `size`; `save` with
`resize=true` applies the same transformation unconditionally. -/
theorem resize_spec (rm : ReplayMemory) (hwf : WF rm) :
    (resize rm).max_steps = rm.size ∧
    (resize rm).size = rm.size ∧
    (resize rm).wrap_memory = rm.wrap_memory ∧
    (resize rm).imgs = rm.imgs.take rm.size ∧
    (resize rm).actions = rm.actions.take rm.size ∧
    (resize rm).rewards = rm.rewards.take rm.size ∧
    (resize rm).terminal = rm.terminal.take rm.size ∧
    (resize rm).lives = rm.lives.take rm.size ∧
    (resize rm).loss_life = rm.loss_life.take rm.size ∧
    (resize rm).gain_life = rm.gain_life.take rm.size ∧
    (resize rm).full_state = rm.full_state.take rm.size ∧
    (resize rm).imgs.length = rm.size ∧
    (resize rm).actions.length = rm.size ∧
    (resize rm).rewards.length = rm.size ∧
    (resize rm).terminal.length = rm.size ∧
    (resize rm).lives.length = rm.size ∧
    (resize rm).loss_life.length = rm.size ∧
    (resize rm).gain_life.length = rm.size ∧
    (resize rm).full_state.length = rm.size ∧
    save rm true = (resize rm, saveData (resize rm)) := by
  obtain ⟨h1, h2, h3, h4, h5, h6, h7, h8, h9, -, -⟩ := id hwf
  refine ⟨rfl, rfl, rfl, rfl, rfl, rfl, rfl, rfl, rfl, rfl, rfl,
    ?_, ?_, ?_, ?_, ?_, ?_, ?_, ?_, rfl⟩ <;>
    simp [resize, List.length_take] <;> omega

/-- Witness for C6's amended theorem at a concrete wrapping-mode buffer. -/
theorem resize_spec_witness :
    (resize (initRM 1 1 2 4 1 true 3 true)).max_steps =
      (initRM 1 1 2 4 1 true 3 true).size :=
  (resize_spec (initRM 1 1 2 4 1 true 3 true) (by unfold WF; decide)).1

/-- C7: `save` (without resizing) followed by `load` into a freshly
constructed buffer of the same capacity reproduces every scalar field and
every array, the decompressed images included. -/
theorem save_load_roundtrip (rm fresh : ReplayMemory)
    (hcap : fresh.max_steps = rm.max_steps) :
    (load fresh (saveData rm)).width = rm.width ∧
    (load fresh (saveData rm)).height = rm.height ∧
    (load fresh (saveData rm)).max_steps = rm.max_steps ∧
    (load fresh (saveData rm)).phi_length = rm.phi_length ∧
    (load fresh (saveData rm)).num_actions = rm.num_actions ∧
    (load fresh (saveData rm)).size = rm.size ∧
    (load fresh (saveData rm)).wrap_memory = rm.wrap_memory ∧
    (load fresh (saveData rm)).top = rm.top ∧
    (load fresh (saveData rm)).bottom = rm.bottom ∧
    (load fresh (saveData rm)).imgs_normalized = rm.imgs_normalized ∧
    (load fresh (saveData rm)).actions = rm.actions ∧
    (load fresh (saveData rm)).rewards = rm.rewards ∧
    (load fresh (saveData rm)).terminal = rm.terminal ∧
    (load fresh (saveData rm)).lives = rm.lives ∧
    (load fresh (saveData rm)).loss_life = rm.loss_life ∧
    (load fresh (saveData rm)).gain_life = rm.gain_life ∧
    (load fresh (saveData rm)).full_state = rm.full_state ∧
    (load fresh (saveData rm)).imgs = rm.imgs := by
  refine ⟨rfl, rfl, rfl, rfl, rfl, rfl, rfl, rfl, rfl, rfl, rfl, rfl, rfl,
    rfl, rfl, rfl, rfl, rfl⟩

/-- Witness for C7: round trip at a concrete buffer into a fresh buffer of
the same capacity. -/
theorem save_load_roundtrip_witness :
    (load (initRM 1 1 4 4 1 false 3 true)
        (saveData { initRM 1 1 4 4 1 false 3 true with
          rewards := [0, 1, 2, 3], size := 4 })).rewards =
      ({ initRM 1 1 4 4 1 false 3 true with
          rewards := [0, 1, 2, 3], size := 4 } : ReplayMemory).rewards :=
  (save_load_roundtrip
    { initRM 1 1 4 4 1 false 3 true with rewards := [0, 1, 2, 3], size := 4 }
    (initRM 1 1 4 4 1 false 3 true) rfl).2.2.2.2.2.2.2.2.2.2.2.1

/-- The backward discounted-propagation loop (source lines 103-105):
`for i in range(size-2, 0, -1): rewards[i] = rewards[i] + gamma*rewards[i+1]`.
`propLoop gamma rw n` runs the body for `i = n, n-1, ..., 1` in that order. -/
def propLoop (gamma : ℚ) (rw : List ℚ) : Nat → List ℚ
  | 0 => rw
  | n + 1 =>
    propLoop gamma
      (rw.set (n + 1) (rw.getD (n + 1) 0 + gamma * rw.getD (n + 2) 0)) n

/-- Mean of a list of rationals (`np.mean`; division by a zero length is
never reached because the caller tests for emptiness first). -/
def qMean (l : List ℚ) : ℚ := l.sum / l.length

/-- Population variance of a list of rationals (square of `np.std`). -/
def qVar (l : List ℚ) : ℚ := ((l.map fun x => (x - qMean l) ^ 2).sum) / l.length

/-- `propagate_rewards` (source lines 79-116).  Optional clipping to
`[-1, 1]`; optional outlier suppression, where the numpy condition
`np.abs(r - mean) > 2*std` over the nonzero-reward statistics is expressed
equivalently by squaring (both sides are nonnegative), and an empty nonzero
selection yields a `nan` mean so that no element compares as an outlier;
optional division by `max_reward`; then the backward propagation loop.  With
`minmax_scale` the source then evaluates `scaler.fit` although the variable
`scaler` is never assigned (only the class `MinMaxScaler` is imported), so a
`NameError` is raised after the loop has already mutated the rewards.
Finally the two trailing debug computations evaluate `np.linalg.norm` of the
reward array and `np.min` of its nonzero entries, which raise `ValueError`
when the array is empty or all zero. -/
def propagate_rewards (rm : ReplayMemory) (gamma : ℚ)
    (clip normalize minmax_scale exclude_outlier : Bool) (max_reward : ℚ) :
    PyRes :=
  let rw1 :=
    if clip then rm.rewards.map (fun x => max (-1) (min 1 x))
    else if exclude_outlier && max_reward != 0 then
      let nz := rm.rewards.filter (fun x => x != 0)
      let outliers :=
        if nz.isEmpty then []
        else rm.rewards.filter (fun r => decide (4 * qVar nz < (r - qMean nz) ^ 2))
      outliers.foldl
        (fun acc o =>
          if o != 0 then
            acc.map (fun x =>
              if x == o then (if 0 < o then max_reward else -max_reward) else x)
          else acc)
        rm.rewards
    else rm.rewards
  let rw2 :=
    if normalize && max_reward != 0 then rw1.map (fun x => x / max_reward) else rw1
  let rw3 := propLoop gamma rw2 (rm.size - 2)
  let rmL := { rm with rewards := rw3 }
  if minmax_scale then .raised .nameErr rmL
  else if rw3.isEmpty then .raised .valueErr rmL
  else if rw3.all (fun x => x == 0) then .raised .valueErr rmL
  else .ok rmL

theorem getD_set_ne {α : Type} (l : List α) (i j : Nat) (a d : α) (h : i ≠ j) :
    (l.set i a).getD j d = l.getD j d := by
  simp [List.getD_eq_getD_get?, List.get?_eq_getElem?, List.getElem?_set_ne h]

theorem getD_set_self {α : Type} (l : List α) (i : Nat) (a d : α)
    (h : i < l.length) :
    (l.set i a).getD i d = a := by
  simp [List.getD_eq_getD_get?, List.get?_eq_getElem?,
    List.getElem?_set_eq_of_lt a h]

theorem propLoop_length (gamma : ℚ) (rw : List ℚ) (n : Nat) :
    (propLoop gamma rw n).length = rw.length := by
  induction n generalizing rw with
  | zero => rfl
  | succ m ih => rw [propLoop, ih, List.length_set]

theorem propLoop_getD_high (gamma : ℚ) (rw : List ℚ) (n j : Nat)
    (hj : j = 0 ∨ n < j) :
    (propLoop gamma rw n).getD j 0 = rw.getD j 0 := by
  induction n generalizing rw with
  | zero => rfl
  | succ m ih =>
    rw [propLoop, ih _ (by omega), getD_set_ne _ _ _ _ _ (by omega)]

theorem propLoop_rec (gamma : ℚ) (rw : List ℚ) (n : Nat) (hn : n < rw.length) :
    ∀ j, 1 ≤ j → j ≤ n →
      (propLoop gamma rw n).getD j 0 =
        rw.getD j 0 + gamma * (propLoop gamma rw n).getD (j + 1) 0 := by
  induction n generalizing rw with
  | zero =>
    intro j h1 h2
    omega
  | succ m ih =>
    intro j h1 h2
    rw [propLoop]
    by_cases hj : j = m + 1
    · subst hj
      rw [propLoop_getD_high gamma _ m (m + 1) (Or.inr (by omega)),
        propLoop_getD_high gamma _ m (m + 2) (Or.inr (by omega)),
        getD_set_self _ _ _ _ (by omega),
        getD_set_ne _ _ _ _ _ (by omega)]
    · rw [ih _ (by rw [List.length_set]; omega) j h1 (by omega),
        getD_set_ne _ _ _ _ _ (by omega)]

theorem propagate_off_rewards (rm : ReplayMemory) (gamma : ℚ) :
    (stateOfP (propagate_rewards rm gamma false false false false 0)).rewards =
      propLoop gamma rm.rewards (rm.size - 2) := by
  unfold propagate_rewards
  simp only [Bool.false_and, Bool.false_eq_true, if_false]
  repeat' split
  all_goals rfl

/-- A concrete demonstration buffer: rewards `[0, 0, 1, 0]` with `size = 4`. -/
def rmP : ReplayMemory :=
  { initRM 1 1 4 4 1 false 3 true with rewards := [0, 0, 1, 0], size := 4 }

/-- C8: with all optional passes disabled, `propagate_rewards` rewrites the
reward array in place by the backward recurrence
`reward[i] = reward[i] + gamma * reward[i+1]` for `i` from `size-2` down to
`1`, leaving index `0` and indices from `size-1` on untouched; on rewards
`[0,0,1,0]` with `size = 4` and `gamma = 0.95` the result is
`[0, 0.95, 1, 0]`. -/
theorem propagate_rewards_spec (rm : ReplayMemory) (gamma : ℚ)
    (hsz : rm.size ≤ rm.rewards.length) :
    ((stateOfP (propagate_rewards rm gamma false false false false 0)).rewards.length
        = rm.rewards.length) ∧
    (∀ j, j = 0 ∨ rm.size ≤ j + 1 →
      (stateOfP
          (propagate_rewards rm gamma false false false false 0)).rewards.getD j 0
        = rm.rewards.getD j 0) ∧
    (∀ j, 1 ≤ j → j + 2 ≤ rm.size →
      (stateOfP
          (propagate_rewards rm gamma false false false false 0)).rewards.getD j 0
        = rm.rewards.getD j 0 +
          gamma * (stateOfP
            (propagate_rewards rm gamma false false false false 0)).rewards.getD
              (j + 1) 0) ∧
    (stateOfP
        (propagate_rewards rmP (19/20 : ℚ) false false false false 0)).rewards
      = [0, 19/20, 1, 0] := by
  rw [propagate_off_rewards rm gamma]
  refine ⟨propLoop_length gamma rm.rewards (rm.size - 2), ?_, ?_, ?_⟩
  · intro j hj
    refine propLoop_getD_high gamma rm.rewards (rm.size - 2) j ?_
    rcases hj with hj | hj
    · exact Or.inl hj
    · by_cases h0 : j = 0
      · exact Or.inl h0
      · exact Or.inr (by omega)
  · intro j h1 h2
    exact propLoop_rec gamma rm.rewards (rm.size - 2) (by omega) j h1 (by omega)
  · rw [propagate_off_rewards rmP (19/20 : ℚ)]
    show propLoop (19/20 : ℚ) [0, 0, 1, 0] 2 = [0, 19/20, 1, 0]
    norm_num [propLoop]

/-- Witness for C8 at the concrete demonstration buffer. -/
theorem propagate_rewards_spec_witness :
    (stateOfP
        (propagate_rewards rmP (19/20 : ℚ) false false false false 0)).rewards
      = [0, 19/20, 1, 0] :=
  (propagate_rewards_spec rmP (19/20 : ℚ) (by decide)).2.2.2

/-- C9 (code bug): calling `propagate_rewards` with `minmax_scale = true`
does not complete and does not rescale: the source evaluates `scaler.fit`
with the variable `scaler` never assigned, raising `NameError` after the
propagation loop has already run. -/
theorem propagate_minmax_raises :
    errOfP (propagate_rewards rmP (19/20 : ℚ) false false true false 0) =
      some PyErr.nameErr ∧
    (stateOfP (propagate_rewards rmP (19/20 : ℚ) false false true false 0)).rewards
      = [0, 19/20, 1, 0] := by
  refine ⟨rfl, ?_⟩
  show propLoop (19/20 : ℚ) [0, 0, 1, 0] 2 = [0, 19/20, 1, 0]
  norm_num [propLoop]

/-- Evaluation of a Python slice `l[s : s+k]` under `np.any` with predicate
`p` (slices clip at the array ends). -/
def sliceAny {α : Type} (l : List α) (s k : Nat) (p : α → Bool) : Bool :=
  ((l.drop s).take k).any p

/-- Outcome of a `sample2` call: a raised exception, exhaustion of the
supplied random draws, or a normal return. -/
inductive SampleOutcome where
  | raised : PyErr → SampleOutcome
  | noMoreDraws : SampleOutcome
  | returned : SampleOutcome
deriving DecidableEq

/-- The exception the `sample2` loop body raises once a draw is accepted:
an `IndexError` escaping `__getitem__` propagates; unpacking the 6-element
unavailable tuple into 8 variables raises `ValueError`; and on a successful
fetch the guard `if s is None` (source line 334) reads the never-assigned
variable `s` (`s0` was intended), raising `NameError`. -/
def errOf : GetRes → PyErr
  | .err => .indexErr
  | .unavailable => .valueErr
  | .ok _ _ _ _ _ _ _ _ => .nameErr

/-- The `while count < batch_size` loop of `sample2` (source lines 322-352),
fed the successive indices produced by the random draws; `k` is
`k_bad_states`.  A draw rejected by the look-ahead filter continues with the
next draw; any accepted draw raises (see `errOf`), so no iteration ever
completes. -/
def sample2Go (rm : ReplayMemory) (k : Nat) : List Nat → SampleOutcome
  | [] => .noMoreDraws
  | index :: rest =>
    if k != 0 &&
        (sliceAny rm.rewards (index + rm.phi_length - 1) k (fun r => decide (r < 0)) ||
          sliceAny rm.loss_life (index + rm.phi_length - 1) k (fun t => t == 1)) then
      sample2Go rm k rest
    else .raised (errOf (getitem rm index))

/-- `sample2(batch_size, normalize, k_bad_states, ...)` (source lines
297-354): asserts bounded mode and a nonempty draw range
(`high = size + 1 - phi_length > 0`); with `batch_size = 0` the loop body
never runs and the empty batch is returned; otherwise the loop consumes the
draws. -/
def sample2 (rm : ReplayMemory) (batch k : Nat) (draws : List Nat) :
    SampleOutcome :=
  if rm.wrap_memory then .raised .assertErr
  else if rm.size + 1 ≤ rm.phi_length then .raised .assertErr
  else if batch == 0 then .returned
  else sample2Go rm k draws

/-- A bounded buffer with four records, no terminal flags, spare capacity. -/
def rmG : ReplayMemory := { initRM 1 1 5 4 1 false 3 true with size := 4 }

/-- C4 (code bug): on a valid draw in a bounded buffer `sample2` raises
`NameError` at the guard `if s is None` (the variable `s` is never assigned;
`s0` was intended) instead of collecting the window and returning a batch. -/
theorem sample2_nameError_on_valid_draw :
    sample2 rmG 1 0 [0] = SampleOutcome.raised PyErr.nameErr := rfl

/-- C5 (amended): in bounded mode with the sampling precondition satisfied,
`batch_size ≥ 1` and `k_bad_states = 0`, `sample2` never returns: its first
draw raises `NameError` when the fetched window is available, `ValueError`
(the 6-element unavailable tuple unpacked into 8 variables) when it is
unavailable, and propagates `IndexError` when the fetch itself raises. -/
theorem sample2_never_returns (rm : ReplayMemory) (batch k d : Nat)
    (rest : List Nat) (hw : rm.wrap_memory = false)
    (hpre : rm.phi_length ≤ rm.size) (hb : 1 ≤ batch) (hk : k = 0) :
    sample2 rm batch k (d :: rest) =
      SampleOutcome.raised (errOf (getitem rm d)) := by
  subst hk
  unfold sample2 sample2Go
  rw [if_neg (by rw [hw]; exact Bool.false_ne_true), if_neg (by omega),
    if_neg (by simp only [beq_iff_eq]; omega), if_neg (by simp)]

/-- Witness for C5's amended theorem at a concrete buffer and draw. -/
theorem sample2_never_returns_witness :
    sample2 rmG 1 0 [0] = SampleOutcome.raised (errOf (getitem rmG 0)) :=
  sample2_never_returns rmG 1 0 0 [] rfl (by decide) (by decide) rfl

/-- A bounded buffer whose only window crosses a terminal: `size = 2`,
`phi_length = 2`, both terminal flags set.  It satisfies the sampling
precondition `size + 1 - phi_length > 0`. -/
def rmT : ReplayMemory :=
  { initRM 1 1 2 2 1 false 3 true with size := 2, terminal := [1, 1] }

/-- Counterexample to C5 as stated: on `rmT` the first draw fetches an
unavailable window, so `sample2` raises `ValueError` (the 6-element
unavailable tuple fails to unpack into 8 variables), not `NameError`. -/
theorem sample2_valueError_counterexample :
    sample2 rmT 1 0 [0] = SampleOutcome.raised PyErr.valueErr ∧
    SampleOutcome.raised PyErr.valueErr ≠ SampleOutcome.raised PyErr.nameErr :=
  ⟨rfl, by decide⟩

theorem setRow_mismatch (l : List (List Nat)) (i : Nat) (v : List Nat)
    (hi : i < l.length) (hne : v.length ≠ (l.getD i []).length)
    (h1 : v.length ≠ 1) :
    setRow l i v = Except.error PyErr.valueErr := by
  unfold setRow
  rw [if_pos hi]
  dsimp only
  rw [if_neg (by simp only [beq_iff_eq]; exact hne),
    if_neg (by simp only [beq_iff_eq]; exact h1)]

/-- C10: `add`'s default `fullstate` argument is a zero vector of length
1021, while the rows of `full_state` have width `full_state_size`; whenever
`full_state_size ≠ 1021`, an `add` that omits `fullstate` and reaches the
write path in bounded mode raises a broadcast `ValueError` at the
`full_state` row assignment, and the transition is not recorded (`size`,
`top` and `bottom` are unchanged; the writes to the earlier parallel arrays
have already happened when the error is raised). -/
theorem addDefault_shape_mismatch (rm : ReplayMemory) (img : Nat → Nat → Nat)
    (action : Nat) (reward : ℚ) (terminal : Bool) (lives : Int)
    (hw : rm.wrap_memory = false) (hlt : rm.size < rm.max_steps)
    (hwf : WF rm) (hne : rm.full_state_size ≠ 1021) :
    ∃ rm', addDefault rm img action reward terminal lives =
        PyRes.raised PyErr.valueErr rm' ∧
      rm'.size = rm.size ∧ rm'.top = rm.top ∧ rm'.bottom = rm.bottom := by
  obtain ⟨h1, h2, h3, h4, h5, h6, h7, h8, h9, h10, h11⟩ := hwf
  have hidx : (if rm.wrap_memory then rm.top else rm.size) < rm.max_steps := by
    rw [hw]
    simpa using hlt
  have hguard : (!rm.wrap_memory && rm.size == rm.max_steps) = false := by
    rw [hw]
    simp only [Bool.not_false, Bool.true_and, beq_eq_false_iff_ne, ne_eq]
    omega
  unfold addDefault add
  rw [hguard, if_neg Bool.false_ne_true]
  dsimp only
  rw [setAt_lt _ _ _ (by rw [h1]; exact hidx)]
  dsimp only
  rw [setAt_lt _ _ _ (by rw [h2]; exact hidx)]
  dsimp only
  rw [setAt_lt _ _ _ (by rw [h3]; exact hidx)]
  dsimp only
  rw [setAt_lt _ _ _ (by rw [h4]; exact hidx)]
  dsimp only
  rw [setAt_lt _ _ _ (by rw [h5]; exact hidx)]
  dsimp only
  rw [setAt_lt _ _ _ (by rw [h6]; exact hidx)]
  dsimp only
  rw [setAt_lt _ _ _ (by rw [h7]; exact hidx)]
  dsimp only
  have hifs : (if rm.wrap_memory then rm.top else rm.size) < rm.full_state.length := by
    rw [h8]
    exact hidx
  have hrowlen : (rm.full_state.getD (if rm.wrap_memory then rm.top else rm.size)
      []).length = rm.full_state_size := by
    rw [List.getD_eq_getElem _ _ hifs]
    exact h11 _ (List.getElem_mem hifs)
  rw [setRow_mismatch _ _ _ hifs (by rw [hrowlen, List.length_replicate]; omega)
    (by rw [List.length_replicate]; omega)]
  exact ⟨_, rfl, rfl, rfl, rfl⟩

/-- Witness for C10 at a freshly constructed buffer with the default
`full_state_size = 1013`. -/
theorem addDefault_shape_mismatch_witness :
    errOfP (addDefault (initRM 1 1 2 4 1 false 1013 true)
        (fun _ _ => 0) 0 0 false 3) = some PyErr.valueErr ∧
    (stateOfP (addDefault (initRM 1 1 2 4 1 false 1013 true)
        (fun _ _ => 0) 0 0 false 3)).size =
      (initRM 1 1 2 4 1 false 1013 true).size := by
  obtain ⟨rm2, heq, hsz, -, -⟩ :=
    addDefault_shape_mismatch (initRM 1 1 2 4 1 false 1013 true)
      (fun _ _ => 0) 0 0 false 3 rfl (by decide) (by unfold WF; decide) (by decide)
  rw [heq]
  exact ⟨rfl, hsz⟩

end ReplayMemorySpec
